import Mathlib

/-!
Verification of the query-compilation and CRUD-orchestration layer of the
seekdb client SDK (`src/filters.rs`, `src/collection.rs`, `src/meta.rs`,
`src/error.rs`).  Rust functions are shallow-embedded as Lean functions;
external collaborators (SQL backend, embedding function, serde_json,
the Rust float codec) are passed as explicit function parameters.
-/

namespace SeekDb

/-- JSON values (embedding of `serde_json::Value`).  Numbers are modelled as
integers: no claim under verification computes on numeric payloads, they are
only carried around by the compilers. -/
inductive Json where
  | null : Json
  | bool (b : Bool) : Json
  | num (n : Int) : Json
  | str (s : String) : Json
  | arr (xs : List Json) : Json
  | obj (fields : List (String × Json)) : Json

/-- Metadata values are JSON values (`types.rs`: `pub type Metadata = serde_json::Value`). -/
abbrev Metadata := Json

/-- Metadata filter expressions (`filters.rs`, `enum Filter`). -/
inductive Filter where
  | Eq (field : String) (value : Metadata) : Filter
  | Lt (field : String) (value : Metadata) : Filter
  | Gt (field : String) (value : Metadata) : Filter
  | Lte (field : String) (value : Metadata) : Filter
  | Gte (field : String) (value : Metadata) : Filter
  | Ne (field : String) (value : Metadata) : Filter
  | In (field : String) (values : List Metadata) : Filter
  | Nin (field : String) (values : List Metadata) : Filter
  | And (fs : List Filter) : Filter
  | Or (fs : List Filter) : Filter
  | Not (f : Filter) : Filter


/-- Document filter expressions (`filters.rs`, `enum DocFilter`). -/
inductive DocFilter where
  | Contains (text : String) : DocFilter
  | Regex (pattern : String) : DocFilter
  | And (fs : List DocFilter) : DocFilter
  | Or (fs : List DocFilter) : DocFilter


/-- SQL WHERE clause plus bound parameters (`filters.rs`, `struct SqlWhere`). -/
structure SqlWhere where
  clause : String
  params : List Metadata


/-- Rust `Vec::join(sep)`: joins the strings with the separator between
consecutive elements. -/
def joinSep (sep : String) : List String → String
  | [] => ""
  | [x] => x
  | x :: y :: rest => x ++ sep ++ joinSep sep (y :: rest)

/-- The `"?, ?, ?"` placeholder list of `filters.rs`
(`std::iter::repeat("?").take(n).collect::<Vec<_>>().join(", ")`). -/
def placeholders (n : Nat) : String :=
  joinSep ", " (List.replicate n "?")

mutual

/-- Embedding of `filters.rs::build_meta_clause`.  Returns the clause fragment
together with the bound parameters, exactly as the Rust function builds them. -/
def build_meta_clause : Filter → String × List Metadata
  | .Eq field value =>
      ("JSON_EXTRACT(metadata, \x27$." ++ field ++ "\x27) = ?", [value])
  | .Lt field value =>
      ("JSON_EXTRACT(metadata, \x27$." ++ field ++ "\x27) < ?", [value])
  | .Gt field value =>
      ("JSON_EXTRACT(metadata, \x27$." ++ field ++ "\x27) > ?", [value])
  | .Lte field value =>
      ("JSON_EXTRACT(metadata, \x27$." ++ field ++ "\x27) <= ?", [value])
  | .Gte field value =>
      ("JSON_EXTRACT(metadata, \x27$." ++ field ++ "\x27) >= ?", [value])
  | .Ne field value =>
      ("JSON_EXTRACT(metadata, \x27$." ++ field ++ "\x27) != ?", [value])
  | .In field values =>
      ("JSON_EXTRACT(metadata, \x27$." ++ field ++ "\x27) IN (" ++
        placeholders values.length ++ ")", values)
  | .Nin field values =>
      ("JSON_EXTRACT(metadata, \x27$." ++ field ++ "\x27) NOT IN (" ++
        placeholders values.length ++ ")", values)
  | .And fs =>
      let r := build_meta_parts fs
      ("(" ++ joinSep " AND " r.1 ++ ")", r.2)
  | .Or fs =>
      let r := build_meta_parts fs
      ("(" ++ joinSep " OR " r.1 ++ ")", r.2)
  | .Not f =>
      let r := build_meta_clause f
      if r.1 = "" then ("", []) else ("NOT (" ++ r.1 ++ ")", r.2)

/-- The child loop of the `And`/`Or` arms of `build_meta_clause`: children with
an empty fragment are skipped and their params dropped; surviving fragments and
params keep their order. -/
def build_meta_parts : List Filter → List String × List Metadata
  | [] => ([], [])
  | f :: rest =>
      let c := build_meta_clause f
      let r := build_meta_parts rest
      if c.1 = "" then r else (c.1 :: r.1, c.2 ++ r.2)

end

mutual

/-- Embedding of `filters.rs::build_doc_clause`. -/
def build_doc_clause : DocFilter → String × List Metadata
  | .Contains text =>
      ("MATCH(document) AGAINST (? IN NATURAL LANGUAGE MODE)", [Json.str text])
  | .Regex pattern =>
      ("document REGEXP ?", [Json.str pattern])
  | .And fs =>
      let r := build_doc_parts fs
      ("(" ++ joinSep " AND " r.1 ++ ")", r.2)
  | .Or fs =>
      let r := build_doc_parts fs
      ("(" ++ joinSep " OR " r.1 ++ ")", r.2)

/-- The child loop of the `And`/`Or` arms of `build_doc_clause`. -/
def build_doc_parts : List DocFilter → List String × List Metadata
  | [] => ([], [])
  | f :: rest =>
      let c := build_doc_clause f
      let r := build_doc_parts rest
      if c.1 = "" then r else (c.1 :: r.1, c.2 ++ r.2)

end

/-- The ids block of `filters.rs::build_where_clause`: a non-empty id list
pushes the fragment `_id IN (?, ...)` and one string parameter per id. -/
def idPart : Option (List String) → List String × List Metadata
  | some l =>
      if l.isEmpty then ([], [])
      else (["_id IN (" ++ placeholders l.length ++ ")"], l.map Json.str)
  | none => ([], [])

/-- The metadata block of `filters.rs::build_where_clause`: a present filter
pushes its compiled fragment and params unless the fragment is empty. -/
def metaPart : Option Filter → List String × List Metadata
  | some f =>
      let c := build_meta_clause f
      if c.1 = "" then ([], []) else ([c.1], c.2)
  | none => ([], [])

/-- The document block of `filters.rs::build_where_clause`. -/
def docPart : Option DocFilter → List String × List Metadata
  | some d =>
      let c := build_doc_clause d
      if c.1 = "" then ([], []) else ([c.1], c.2)
  | none => ([], [])

/-- Embedding of `filters.rs::build_where_clause`: ids fragment, then metadata
fragment, then document fragment, joined by AND; params pushed in the same
order. -/
def build_where_clause (filter : Option Filter) (doc_filter : Option DocFilter)
    (ids : Option (List String)) : SqlWhere :=
  let clauses := (idPart ids).1 ++ (metaPart filter).1 ++ (docPart doc_filter).1
  let params := (idPart ids).2 ++ (metaPart filter).2 ++ (docPart doc_filter).2
  { clause := if clauses.isEmpty then "" else "WHERE " ++ joinSep " AND " clauses
    params := params }

/-- Number of `?` placeholder characters in a clause string. -/
def countQ (s : String) : Nat := s.data.count '?'

/-- A field name is clean when splicing it into the clause text introduces no
spurious `?` character (field names are inlined verbatim by the compiler;
the spec assumes pre-validated identifiers). -/
def fieldClean (s : String) : Bool := countQ s == 0

mutual

/-- All metadata field names in the filter are clean. -/
def metaFieldsOk : Filter → Bool
  | .Eq field _ => fieldClean field
  | .Lt field _ => fieldClean field
  | .Gt field _ => fieldClean field
  | .Lte field _ => fieldClean field
  | .Gte field _ => fieldClean field
  | .Ne field _ => fieldClean field
  | .In field _ => fieldClean field
  | .Nin field _ => fieldClean field
  | .And fs => metaFieldsOkList fs
  | .Or fs => metaFieldsOkList fs
  | .Not f => metaFieldsOk f

/-- List version of `metaFieldsOk`. -/
def metaFieldsOkList : List Filter → Bool
  | [] => true
  | f :: rest => metaFieldsOk f && metaFieldsOkList rest

end

theorem countQ_append (a b : String) : countQ (a ++ b) = countQ a + countQ b := by
  simp [countQ, String.data_append, List.count_append]

theorem countQ_joinSep (sep : String) (h : countQ sep = 0) :
    ∀ ss : List String, countQ (joinSep sep ss) = (ss.map countQ).sum
  | [] => by simp [joinSep, countQ]
  | [x] => by simp [joinSep]
  | x :: y :: rest => by
      have ih := countQ_joinSep sep h (y :: rest)
      simp only [joinSep, countQ_append, h, List.map_cons, List.sum_cons] at ih ⊢
      omega

theorem countQ_placeholders (n : Nat) : countQ (placeholders n) = n := by
  have h := countQ_joinSep ", " (by decide) (List.replicate n "?")
  simp only [placeholders, h, List.map_replicate] at *
  have : countQ "?" = 1 := by decide
  simp [this, List.sum_replicate, Nat.smul_one_eq_cast]

theorem length_pos_append_left (a b : String) (h : 0 < a.length) :
    0 < (a ++ b).length := by
  rw [String.length_append]; omega

/-- No metadata subtree ever compiles to an empty fragment: every arm of
`build_meta_clause` emits at least one character (an `And`/`Or` with an empty
child list still emits the parentheses). -/
theorem build_meta_clause_length_pos (f : Filter) : 0 < (build_meta_clause f).1.length := by
  have hj : 0 < ("JSON_EXTRACT(metadata, \x27$.".length) := by decide
  have hp : 0 < ("(".length) := by decide
  have hn : 0 < ("NOT (".length) := by decide
  match f with
  | .Eq field v | .Lt field v | .Gt field v | .Lte field v | .Gte field v | .Ne field v
  | .In field v | .Nin field v =>
      simp only [build_meta_clause, String.length_append]; omega
  | .And fs | .Or fs =>
      simp only [build_meta_clause, String.length_append]; omega
  | .Not g =>
      have ih := build_meta_clause_length_pos g
      have hne : ¬ (build_meta_clause g).1 = "" := by
        intro he; rw [he] at ih; simp at ih
      simp only [build_meta_clause, if_neg hne, String.length_append]; omega

/-- No document subtree ever compiles to an empty fragment. -/
theorem build_doc_clause_length_pos (d : DocFilter) : 0 < (build_doc_clause d).1.length := by
  have hp : 0 < ("(".length) := by decide
  match d with
  | .Contains t => simp only [build_doc_clause]; decide
  | .Regex p => simp only [build_doc_clause]; decide
  | .And fs | .Or fs =>
      simp only [build_doc_clause, String.length_append]; omega

theorem build_meta_clause_ne_empty (f : Filter) : ¬ (build_meta_clause f).1 = "" := by
  intro he
  have := build_meta_clause_length_pos f
  rw [he] at this; simp at this

theorem build_doc_clause_ne_empty (d : DocFilter) : ¬ (build_doc_clause d).1 = "" := by
  intro he
  have := build_doc_clause_length_pos d
  rw [he] at this; simp at this

mutual

/-- Placeholder discipline for metadata fragments: with clean field names, the
fragment has exactly one `?` per bound parameter. -/
theorem meta_countQ (f : Filter) (h : metaFieldsOk f = true) :
    countQ (build_meta_clause f).1 = (build_meta_clause f).2.length := by
  match f with
  | .Eq field v | .Lt field v | .Gt field v | .Lte field v | .Gte field v | .Ne field v =>
      simp only [metaFieldsOk, fieldClean, beq_iff_eq] at h
      simp [build_meta_clause, countQ_append, h]; decide
  | .In field vs | .Nin field vs =>
      simp only [metaFieldsOk, fieldClean, beq_iff_eq] at h
      have e1 : countQ "JSON_EXTRACT(metadata, \x27$." = 0 := by decide
      have e2 : countQ "\x27) IN (" = 0 := by decide
      have e3 : countQ "\x27) NOT IN (" = 0 := by decide
      have e4 : countQ ")" = 0 := by decide
      simp only [build_meta_clause, countQ_append, h, countQ_placeholders,
        e1, e2, e3, e4]
      omega
  | .And fs =>
      have hl := meta_parts_countQ fs (by simpa [metaFieldsOk] using h)
      have e1 : countQ "(" = 0 := by decide
      have e2 : countQ ")" = 0 := by decide
      simp only [build_meta_clause, countQ_append,
        countQ_joinSep " AND " (by decide), hl, e1, e2]
      omega
  | .Or fs =>
      have hl := meta_parts_countQ fs (by simpa [metaFieldsOk] using h)
      have e1 : countQ "(" = 0 := by decide
      have e2 : countQ ")" = 0 := by decide
      simp only [build_meta_clause, countQ_append,
        countQ_joinSep " OR " (by decide), hl, e1, e2]
      omega
  | .Not g =>
      have ih := meta_countQ g (by simpa [metaFieldsOk] using h)
      have e1 : countQ "NOT (" = 0 := by decide
      have e2 : countQ ")" = 0 := by decide
      simp only [build_meta_clause, if_neg (build_meta_clause_ne_empty g),
        countQ_append, ih, e1, e2]
      omega

/-- Placeholder discipline for the `And`/`Or` child loop. -/
theorem meta_parts_countQ (fs : List Filter) (h : metaFieldsOkList fs = true) :
    ((build_meta_parts fs).1.map countQ).sum = (build_meta_parts fs).2.length := by
  match fs with
  | [] => simp [build_meta_parts]
  | f :: rest =>
      simp only [metaFieldsOkList, Bool.and_eq_true] at h
      have hf := meta_countQ f h.1
      have hr := meta_parts_countQ rest h.2
      simp only [build_meta_parts, if_neg (build_meta_clause_ne_empty f)]
      simp [hf, hr]

end

mutual

/-- Placeholder discipline for document fragments (nothing is inlined, so no
cleanliness hypothesis is needed). -/
theorem doc_countQ (d : DocFilter) :
    countQ (build_doc_clause d).1 = (build_doc_clause d).2.length := by
  match d with
  | .Contains t => simp [build_doc_clause]; decide
  | .Regex p => simp [build_doc_clause]; decide
  | .And fs =>
      have hl := doc_parts_countQ fs
      have e1 : countQ "(" = 0 := by decide
      have e2 : countQ ")" = 0 := by decide
      simp only [build_doc_clause, countQ_append,
        countQ_joinSep " AND " (by decide), hl, e1, e2]
      omega
  | .Or fs =>
      have hl := doc_parts_countQ fs
      have e1 : countQ "(" = 0 := by decide
      have e2 : countQ ")" = 0 := by decide
      simp only [build_doc_clause, countQ_append,
        countQ_joinSep " OR " (by decide), hl, e1, e2]
      omega

/-- Placeholder discipline for the document child loop. -/
theorem doc_parts_countQ (fs : List DocFilter) :
    ((build_doc_parts fs).1.map countQ).sum = (build_doc_parts fs).2.length := by
  match fs with
  | [] => simp [build_doc_parts]
  | f :: rest =>
      have hf := doc_countQ f
      have hr := doc_parts_countQ rest
      simp only [build_doc_parts, if_neg (build_doc_clause_ne_empty f)]
      simp [hf, hr]

end

/-- Cleanliness of the optional metadata filter (`none` is trivially clean). -/
def metaOk : Option Filter → Bool
  | some f => metaFieldsOk f
  | none => true

/-- The id-membership parameters contributed by `build_where_clause`. -/
def idParamsOf : Option (List String) → List Metadata
  | some l => l.map Json.str
  | none => []

/-- The metadata parameters contributed by `build_where_clause`. -/
def metaParamsOf : Option Filter → List Metadata
  | some f => (build_meta_clause f).2
  | none => []

/-- The document parameters contributed by `build_where_clause`. -/
def docParamsOf : Option DocFilter → List Metadata
  | some d => (build_doc_clause d).2
  | none => []

theorem countQ_id_fragment (n : Nat) :
    countQ ("_id IN (" ++ placeholders n ++ ")") = n := by
  have e1 : countQ "_id IN (" = 0 := by decide
  have e2 : countQ ")" = 0 := by decide
  simp only [countQ_append, countQ_placeholders, e1, e2]
  omega

theorem clause_assembly (a b c : List String × List Metadata)
    (ha : (a.1.map countQ).sum = a.2.length)
    (hb : (b.1.map countQ).sum = b.2.length)
    (hc : (c.1.map countQ).sum = c.2.length) :
    countQ (if (a.1 ++ b.1 ++ c.1).isEmpty then ""
            else "WHERE " ++ joinSep " AND " (a.1 ++ b.1 ++ c.1)) =
      (a.2 ++ b.2 ++ c.2).length := by
  by_cases hempty : (a.1 ++ b.1 ++ c.1).isEmpty
  · rw [if_pos hempty]
    simp only [List.isEmpty_iff, List.append_eq_nil] at hempty
    obtain ⟨⟨ha1, hb1⟩, hc1⟩ := hempty
    rw [ha1] at ha; rw [hb1] at hb; rw [hc1] at hc
    simp only [List.map_nil, List.sum_nil] at ha hb hc
    have : countQ "" = 0 := by decide
    simp [this, ← ha, ← hb, ← hc]
  · rw [if_neg hempty]
    have hw : countQ "WHERE " = 0 := by decide
    rw [countQ_append, countQ_joinSep " AND " (by decide)]
    simp only [List.map_append, List.sum_append, List.length_append]
    omega

theorem idPart_sum (ids : Option (List String)) :
    ((idPart ids).1.map countQ).sum = (idPart ids).2.length := by
  rcases ids with _ | l
  · simp [idPart]
  · by_cases hl : l.isEmpty
    · simp [idPart, hl]
    · simp [idPart, hl, countQ_id_fragment]

theorem idPart_params (ids : Option (List String)) :
    (idPart ids).2 = idParamsOf ids := by
  rcases ids with _ | l
  · simp [idPart, idParamsOf]
  · by_cases hl : l.isEmpty
    · rw [List.isEmpty_iff] at hl
      simp [idPart, idParamsOf, hl]
    · simp [idPart, idParamsOf, List.isEmpty_iff.not.symm, hl]

theorem metaPart_sum (f : Option Filter) (h : metaOk f = true) :
    ((metaPart f).1.map countQ).sum = (metaPart f).2.length := by
  rcases f with _ | f
  · simp [metaPart]
  · simp only [metaPart, if_neg (build_meta_clause_ne_empty f)]
    simp [meta_countQ f (by simpa [metaOk] using h)]

theorem metaPart_params (f : Option Filter) :
    (metaPart f).2 = metaParamsOf f := by
  rcases f with _ | f
  · simp [metaPart, metaParamsOf]
  · simp [metaPart, metaParamsOf, if_neg (build_meta_clause_ne_empty f)]

theorem docPart_sum (d : Option DocFilter) :
    ((docPart d).1.map countQ).sum = (docPart d).2.length := by
  rcases d with _ | d
  · simp [docPart]
  · simp only [docPart, if_neg (build_doc_clause_ne_empty d)]
    simp [doc_countQ d]

theorem docPart_params (d : Option DocFilter) :
    (docPart d).2 = docParamsOf d := by
  rcases d with _ | d
  · simp [docPart, docParamsOf]
  · simp [docPart, docParamsOf, if_neg (build_doc_clause_ne_empty d)]

/-- C1: `build_where_clause` emits exactly one `?` placeholder per bound
parameter (assuming field names do not themselves contain `?`; they are the
only caller text spliced verbatim into the clause), and the parameter list is
exactly the id parameters, then the metadata parameters, then the document
parameters — the left-to-right order of their placeholders in the clause. -/
theorem c1_where_clause_placeholder_discipline
    (f : Option Filter) (d : Option DocFilter) (ids : Option (List String))
    (h : metaOk f = true) :
    countQ (build_where_clause f d ids).clause =
      (build_where_clause f d ids).params.length ∧
    (build_where_clause f d ids).params =
      idParamsOf ids ++ metaParamsOf f ++ docParamsOf d := by
  constructor
  · exact clause_assembly (idPart ids) (metaPart f) (docPart d)
      (idPart_sum ids) (metaPart_sum f h) (docPart_sum d)
  · show (idPart ids).2 ++ (metaPart f).2 ++ (docPart d).2 = _
    rw [idPart_params, metaPart_params, docPart_params]

/-- C1 witness: the claim instantiated at a metadata filter, a document filter
and a three-element id list (the unit-test input of the repository). -/
theorem c1_witness :
    metaOk (some (.Gte "age" (Json.num 18))) = true ∧
    (countQ (build_where_clause (some (.Gte "age" (Json.num 18)))
        (some (.Contains "hello")) (some ["1", "2", "3"])).clause =
      (build_where_clause (some (.Gte "age" (Json.num 18)))
        (some (.Contains "hello")) (some ["1", "2", "3"])).params.length ∧
    (build_where_clause (some (.Gte "age" (Json.num 18)))
        (some (.Contains "hello")) (some ["1", "2", "3"])).params =
      idParamsOf (some ["1", "2", "3"]) ++
        metaParamsOf (some (.Gte "age" (Json.num 18))) ++
        docParamsOf (some (.Contains "hello"))) :=
  ⟨rfl, c1_where_clause_placeholder_discipline
    (some (.Gte "age" (Json.num 18))) (some (.Contains "hello"))
    (some ["1", "2", "3"]) rfl⟩

/-- C2 counterexample: `Filter::And` with an empty child list compiles to the
clause `WHERE ()` — an empty parenthesis group is produced, refuting the
claim that one never is. -/
theorem c2_counterexample :
    build_where_clause (some (.And [])) none none =
      { clause := "WHERE ()", params := [] } ∧
    List.IsInfix "()".data
      (build_where_clause (some (.And [])) none none).clause.data :=
  ⟨rfl, by decide⟩

/-- C2 amended: absent inputs (a `None` filter, `None` document filter, `None`
or empty id list) contribute nothing to the clause and the compiler never
errs (it is total); no subtree ever yields an empty fragment, so a parent never
degrades; but an `And`/`Or` node with an empty child list compiles to the
empty parenthesis group `()`. -/
theorem c2_absent_inputs_and_empty_groups :
    build_where_clause none none none = { clause := "", params := [] } ∧
    (∀ f d, build_where_clause f d (some []) = build_where_clause f d none) ∧
    (∀ f, 0 < (build_meta_clause f).1.length) ∧
    (∀ d, 0 < (build_doc_clause d).1.length) ∧
    build_meta_clause (.And []) = ("()", []) ∧
    build_meta_clause (.Or []) = ("()", []) ∧
    build_doc_clause (.And []) = ("()", []) ∧
    build_doc_clause (.Or []) = ("()", []) :=
  ⟨rfl, fun _ _ => rfl, build_meta_clause_length_pos, build_doc_clause_length_pos,
    rfl, rfl, rfl, rfl⟩

/-- Key lookup on a JSON object (`serde_json::Value::get(key)`): `None` on
non-objects and missing keys. -/
def Json.get (j : Json) (key : String) : Option Json :=
  match j with
  | .obj fields => fields.lookup key
  | _ => none

/-- Embedding of `collection.rs::meta_path`: the JSON-path field expression
used as the hybrid-DSL field name. -/
def meta_path (field : String) : String :=
  "(JSON_EXTRACT(metadata, \x27$." ++ field ++ "\x27))"

mutual

/-- Embedding of `collection.rs::build_metadata_filter_for_search_parm`:
compiles a metadata filter into a list of hybrid-DSL JSON conditions. -/
def build_metadata_filter_for_search_parm : Filter → List Json
  | .Eq field value =>
      [Json.obj [("term", Json.obj [(meta_path field, value)])]]
  | .Ne field value =>
      [Json.obj [("bool", Json.obj [("must_not",
        Json.arr [Json.obj [("term", Json.obj [(meta_path field, value)])]])])]]
  | .Gt field value =>
      [Json.obj [("range", Json.obj [(meta_path field, Json.obj [("gt", value)])])]]
  | .Gte field value =>
      [Json.obj [("range", Json.obj [(meta_path field, Json.obj [("gte", value)])])]]
  | .Lt field value =>
      [Json.obj [("range", Json.obj [(meta_path field, Json.obj [("lt", value)])])]]
  | .Lte field value =>
      [Json.obj [("range", Json.obj [(meta_path field, Json.obj [("lte", value)])])]]
  | .In field values =>
      [Json.obj [("terms", Json.obj [(meta_path field, Json.arr values)])]]
  | .Nin field values =>
      [Json.obj [("bool", Json.obj [("must_not",
        Json.arr [Json.obj [("terms", Json.obj [(meta_path field, Json.arr values)])]])])]]
  | .And fs =>
      let parts := search_parm_parts fs
      if parts.isEmpty then []
      else [Json.obj [("bool", Json.obj [("must", Json.arr parts)])]]
  | .Or fs =>
      let parts := search_parm_parts fs
      if parts.isEmpty then []
      else [Json.obj [("bool", Json.obj [("should", Json.arr parts)])]]
  | .Not sub =>
      let subs := build_metadata_filter_for_search_parm sub
      if subs.isEmpty then []
      else [Json.obj [("bool", Json.obj [("must_not", Json.arr subs)])]]

/-- The child loop of the `And`/`Or` arms: a child yielding exactly one
condition is pushed unwrapped; several conditions are wrapped in `bool/must`;
an empty child is skipped. -/
def search_parm_parts : List Filter → List Json
  | [] => []
  | f :: rest =>
      let sub := build_metadata_filter_for_search_parm f
      let r := search_parm_parts rest
      match sub with
      | [s] => s :: r
      | [] => r
      | _ => Json.obj [("bool", Json.obj [("must", Json.arr sub)])] :: r

end

/-- Embedding of `collection.rs::build_document_query_for_search_parm`: the
hybrid-DSL document compiler.  `Contains` becomes one `query_string` node;
`And`/`Or` join the texts of their *direct* `Contains` children; `Regex` has
no representation and yields no predicate. -/
def build_document_query_for_search_parm : Option DocFilter → Option Json
  | none => none
  | some (.Contains text) =>
      some (Json.obj [("query_string", Json.obj
        [("fields", Json.arr [Json.str "document"]), ("query", Json.str text)])])
  | some (.And fs) =>
      let parts := fs.filterMap fun f =>
        match f with
        | .Contains text => some text
        | _ => none
      if parts.isEmpty then none
      else some (Json.obj [("query_string", Json.obj
        [("fields", Json.arr [Json.str "document"]),
         ("query", Json.str (joinSep " " parts))])])
  | some (.Or fs) =>
      let parts := fs.filterMap fun f =>
        match f with
        | .Contains text => some text
        | _ => none
      if parts.isEmpty then none
      else some (Json.obj [("query_string", Json.obj
        [("fields", Json.arr [Json.str "document"]),
         ("query", Json.str (joinSep " OR " parts))])])
  | some (.Regex _) => none

/-- High-level scalar/full-text query configuration
(`collection.rs::HybridQuery`). -/
structure HybridQuery where
  where_meta : Option Filter
  where_doc : Option DocFilter

/-- Embedding of `collection.rs::build_query_expr_from_hybrid`: assembles the
`query` member of the hybrid search parameter from a `HybridQuery`. -/
def build_query_expr_from_hybrid (query : HybridQuery) : Option Json :=
  match query.where_doc with
  | none =>
      match query.where_meta with
      | some meta =>
          let fc := build_metadata_filter_for_search_parm meta
          match fc with
          | [] => none
          | [cond] =>
              match cond.get "range" with
              | some r => some (Json.obj [("range", r)])
              | none =>
                  match cond.get "term" with
                  | some t => some (Json.obj [("term", t)])
                  | none => some (Json.obj [("bool", Json.obj [("filter", Json.arr [cond])])])
          | _ => some (Json.obj [("bool", Json.obj [("filter", Json.arr fc)])])
      | none => none
  | some doc_filter =>
      match build_document_query_for_search_parm (some doc_filter) with
      | some doc_q =>
          let fc :=
            match query.where_meta with
            | some m => build_metadata_filter_for_search_parm m
            | none => []
          if fc.isEmpty then some doc_q
          else some (Json.obj [("bool", Json.obj
            [("must", Json.arr [doc_q]), ("filter", Json.arr fc)])])
      | none => none

/-- C4: for every `DocFilter::Regex(pattern)`, the SQL WHERE compiler emits
the fixed pattern-match predicate `document REGEXP ?` with the pattern bound
as the single parameter (the clause text is a constant, so the pattern is
never inlined), while the hybrid-DSL document compiler drops the same node
entirely, yielding no predicate. -/
theorem c4_regex_sql_param_hybrid_dropped (pattern : String) :
    build_doc_clause (.Regex pattern) = ("document REGEXP ?", [Json.str pattern]) ∧
    build_document_query_for_search_parm (some (.Regex pattern)) = none :=
  ⟨rfl, rfl⟩

/-- C3 counterexample: for the metadata-only query `And [Eq a 1, Eq b 2]`, the
metadata filter compiler yields a *single* resulting condition (the `bool/must`
of the two term conditions), yet the query assembler does not emit it
unwrapped: it wraps it in an extra `bool/filter`, so the emitted node is
neither the single condition itself nor a `bool/must` node with two children. -/
theorem c3_counterexample :
    build_metadata_filter_for_search_parm (.And [.Eq "a" (Json.num 1), .Eq "b" (Json.num 2)]) =
      [Json.obj [("bool", Json.obj [("must", Json.arr
        [Json.obj [("term", Json.obj [(meta_path "a", Json.num 1)])],
         Json.obj [("term", Json.obj [(meta_path "b", Json.num 2)])]])])]] ∧
    build_query_expr_from_hybrid
        ⟨some (.And [.Eq "a" (Json.num 1), .Eq "b" (Json.num 2)]), none⟩ =
      some (Json.obj [("bool", Json.obj [("filter", Json.arr
        [Json.obj [("bool", Json.obj [("must", Json.arr
          [Json.obj [("term", Json.obj [(meta_path "a", Json.num 1)])],
           Json.obj [("term", Json.obj [(meta_path "b", Json.num 2)])]])])]])])]) ∧
    build_query_expr_from_hybrid
        ⟨some (.And [.Eq "a" (Json.num 1), .Eq "b" (Json.num 2)]), none⟩ ≠
      some (Json.obj [("bool", Json.obj [("must", Json.arr
        [Json.obj [("term", Json.obj [(meta_path "a", Json.num 1)])],
         Json.obj [("term", Json.obj [(meta_path "b", Json.num 2)])]])])]) := by
  have hw : build_query_expr_from_hybrid
      ⟨some (.And [.Eq "a" (Json.num 1), .Eq "b" (Json.num 2)]), none⟩ =
      some (Json.obj [("bool", Json.obj [("filter", Json.arr
        [Json.obj [("bool", Json.obj [("must", Json.arr
          [Json.obj [("term", Json.obj [(meta_path "a", Json.num 1)])],
           Json.obj [("term", Json.obj [(meta_path "b", Json.num 2)])]])])]])])]) := rfl
  refine ⟨rfl, hw, ?_⟩
  intro h
  rw [hw] at h
  simp at h

/-- C3 amended: a metadata-only query whose filter yields a single resulting
`term` (or `range`) condition is emitted unwrapped — `Eq(category,"AI")` alone
compiles to a single `term` node with no boolean wrapper; an `And` of two
conditions compiles in the metadata filter compiler to `bool/must` with exactly
two children, and the metadata-only query assembler then wraps that single
non-`term`/non-`range` condition in a `bool/filter`. -/
theorem c3_single_condition_unwrapping
    (field : String) (value : Metadata) (f₁ f₂ : Filter) (c₁ c₂ : Json)
    (h₁ : build_metadata_filter_for_search_parm f₁ = [c₁])
    (h₂ : build_metadata_filter_for_search_parm f₂ = [c₂]) :
    build_query_expr_from_hybrid ⟨some (.Eq field value), none⟩ =
      some (Json.obj [("term", Json.obj [(meta_path field, value)])]) ∧
    build_metadata_filter_for_search_parm (.And [f₁, f₂]) =
      [Json.obj [("bool", Json.obj [("must", Json.arr [c₁, c₂])])]] ∧
    build_query_expr_from_hybrid ⟨some (.And [f₁, f₂]), none⟩ =
      some (Json.obj [("bool", Json.obj [("filter", Json.arr
        [Json.obj [("bool", Json.obj [("must", Json.arr [c₁, c₂])])]])])]) := by
  have hand : build_metadata_filter_for_search_parm (.And [f₁, f₂]) =
      [Json.obj [("bool", Json.obj [("must", Json.arr [c₁, c₂])])]] := by
    simp [build_metadata_filter_for_search_parm, search_parm_parts, h₁, h₂]
  refine ⟨rfl, hand, ?_⟩
  simp [build_query_expr_from_hybrid, hand, Json.get, List.lookup]

/-- C3 witness: the amended claim instantiated at `Eq(category,"AI")` and the
`And` of two concrete `Eq` conditions. -/
theorem c3_witness :
    build_metadata_filter_for_search_parm (.Eq "x" (Json.num 1)) =
      [Json.obj [("term", Json.obj [(meta_path "x", Json.num 1)])]] ∧
    (build_query_expr_from_hybrid ⟨some (.Eq "category" (Json.str "AI")), none⟩ =
      some (Json.obj [("term", Json.obj [(meta_path "category", Json.str "AI")])]) ∧
    build_metadata_filter_for_search_parm
        (.And [.Eq "x" (Json.num 1), .Eq "y" (Json.num 2)]) =
      [Json.obj [("bool", Json.obj [("must", Json.arr
        [Json.obj [("term", Json.obj [(meta_path "x", Json.num 1)])],
         Json.obj [("term", Json.obj [(meta_path "y", Json.num 2)])]])])]] ∧
    build_query_expr_from_hybrid
        ⟨some (.And [.Eq "x" (Json.num 1), .Eq "y" (Json.num 2)]), none⟩ =
      some (Json.obj [("bool", Json.obj [("filter", Json.arr
        [Json.obj [("bool", Json.obj [("must", Json.arr
          [Json.obj [("term", Json.obj [(meta_path "x", Json.num 1)])],
           Json.obj [("term", Json.obj [(meta_path "y", Json.num 2)])]])])]])])])) :=
  ⟨rfl, c3_single_condition_unwrapping "category" (Json.str "AI")
    (.Eq "x" (Json.num 1)) (.Eq "y" (Json.num 2))
    (Json.obj [("term", Json.obj [(meta_path "x", Json.num 1)])])
    (Json.obj [("term", Json.obj [(meta_path "y", Json.num 2)])]) rfl rfl⟩

/-- Embeddings are vectors of `f32` values (`types.rs`). -/
abbrev Embedding := List Float

/-- The SDK error taxonomy (`error.rs::SeekDbError`); payloads are the error
messages (the `Serialization`/`Other` wrapped source errors are modelled by
their message strings). -/
inductive SeekDbError where
  | Connection (msg : String)
  | Sql (msg : String)
  | NotFound (msg : String)
  | Config (msg : String)
  | Embedding (msg : String)
  | InvalidInput (msg : String)
  | Serialization (msg : String)
  | Other (msg : String)
  deriving DecidableEq

/-- Physical table name prefix (`meta.rs::CollectionNames::TABLE_PREFIX`). -/
def TABLE_PREFIX : String := "c$v1$"

/-- Physical table name (`meta.rs::CollectionNames::table_name`). -/
def table_name (name : String) : String := TABLE_PREFIX ++ name

/-- Embedding of `collection.rs::merge_values`: the per-field upsert merge. -/
def merge_values (existing_doc : Option String) (existing_meta : Option Json)
    (existing_emb : Option Embedding) (new_doc : Option String)
    (new_meta : Option Metadata) (new_emb : Option Embedding) :
    Option String × Json × Option Embedding :=
  let doc := new_doc.or existing_doc
  let meta :=
    match new_meta, existing_meta with
    | some m, _ => m
    | none, some e => e
    | none, none => Json.null
  let emb := new_emb.or existing_emb
  (doc, meta, emb)

/-- C5: the upsert merge is a per-field precedence — for each of document,
metadata and embedding independently, the merged value is the new value if
provided, otherwise the existing value if present, otherwise null; in
particular with existing `{doc:"old", meta:{x:1}}` and only a new meta `{x:2}`
the merged document stays `"old"` and the merged metadata becomes `{x:2}`. -/
theorem c5_upsert_merge_per_field_precedence
    (ed : Option String) (em : Option Json) (ee : Option Embedding)
    (nd : Option String) (nm : Option Metadata) (nemb : Option Embedding) :
    ((merge_values ed em ee nd nm nemb).1 = nd.or ed) ∧
    ((merge_values ed em ee nd nm nemb).2.1 = (nm.or em).getD Json.null) ∧
    ((merge_values ed em ee nd nm nemb).2.2 = nemb.or ee) ∧
    merge_values (some "old") (some (Json.obj [("x", Json.num 1)])) none
        none (some (Json.obj [("x", Json.num 2)])) none =
      (some "old", Json.obj [("x", Json.num 2)], none) := by
  refine ⟨rfl, ?_, rfl, rfl⟩
  cases nm <;> cases em <;> rfl

/-- Embedding of `collection.rs::Collection::delete` up to backend I/O: the
guard and the single DELETE statement (text plus positional params) it would
issue.  An `error` result is returned before any statement is built, so no
statement is issued in that case. -/
def delete_plan (name : String) (ids : Option (List String))
    (where_meta : Option Filter) (where_doc : Option DocFilter) :
    Except SeekDbError (String × List Metadata) :=
  if ids.isNone && where_meta.isNone && where_doc.isNone then
    .error (.InvalidInput "must provide at least one of ids/where_meta/where_doc")
  else
    let sql_where := build_where_clause where_meta where_doc ids
    .ok ("DELETE FROM `" ++ table_name name ++ "` " ++ sql_where.clause,
      sql_where.params)

/-- C6: `delete(None, None, None)` always fails with `InvalidInput` before any
statement is built, while `delete(Some(ids), None, None)` is accepted (one
DELETE statement) without requiring any metadata or document filter — for any
id list, including the empty one. -/
theorem c6_delete_guard (name : String) (ids : List String) :
    delete_plan name none none none =
      .error (.InvalidInput "must provide at least one of ids/where_meta/where_doc") ∧
    delete_plan name (some ids) none none =
      .ok ("DELETE FROM `" ++ table_name name ++ "` " ++
            (build_where_clause none none (some ids)).clause,
          (build_where_clause none none (some ids)).params) :=
  ⟨rfl, rfl⟩

/-- High-level vector search configuration (`collection.rs::HybridKnn`). -/
structure HybridKnn where
  query_texts : Option (List String)
  query_embeddings : Option (List Embedding)
  where_meta : Option Filter
  n_results : Option Nat

/-- High-level ranking configuration (`collection.rs::HybridRank`). -/
inductive HybridRank where
  | Rrf (rank_window_size : Option Nat) (rank_constant : Option Nat)
  | Raw (v : Json)

/-- Where `Collection::hybrid_search` dispatches: either the `query_texts`
fast path or the hybrid engine (`DBMS_HYBRID_SEARCH`). -/
inductive HybridRoute where
  | queryTexts (texts : List String) (where_meta : Option Filter)
      (where_doc : Option DocFilter) (n_results : Nat)
  | engine

/-- The dispatch decision of `collection.rs::Collection::hybrid_search`
(its fast-path conditional, lines 664-672). -/
def hybrid_search_route (queries : List String) (search_params : Option Json)
    (where_meta : Option Filter) (where_doc : Option DocFilter)
    (n_results : Nat) : HybridRoute :=
  if search_params.isNone && where_meta.isNone && where_doc.isNone
      && !queries.isEmpty then
    .queryTexts queries where_meta where_doc n_results
  else .engine

/-- Where `Collection::hybrid_search_advanced` dispatches: the KNN-only fast
path, an immediate invalid-input error, or the hybrid engine. -/
inductive AdvancedRoute where
  | knnOnly (knn : HybridKnn)
  | invalidInput (msg : String)
  | engine

/-- The dispatch decision of `collection.rs::Collection::hybrid_search_advanced`
(its fast-path conditional, lines 706-716). -/
def hybrid_search_advanced_route (query : Option HybridQuery)
    (knn : Option HybridKnn) (rank : Option HybridRank) : AdvancedRoute :=
  if query.isNone && rank.isNone then
    match knn with
    | some k => .knnOnly k
    | none => .invalidInput "hybrid_search requires at least query or knn parameters"
  else .engine

/-- The plain search call the KNN-only fast path delegates to (the document
filter argument of these calls is fixed to `None` by the path). -/
inductive KnnCall where
  | queryEmbeddings (embs : List Embedding) (where_meta : Option Filter)
  | queryTexts (texts : List String) (where_meta : Option Filter)

/-- Embedding of `collection.rs::Collection::hybrid_search_advanced_knn_only`
up to backend I/O: which plain search API the bypass delegates to. -/
def hybrid_search_advanced_knn_only_model (knn : HybridKnn) :
    Except SeekDbError KnnCall :=
  match knn.query_embeddings with
  | some embs =>
      if embs.isEmpty then
        .error (.InvalidInput "knn.query_embeddings must not be empty")
      else .ok (.queryEmbeddings embs knn.where_meta)
  | none =>
      match knn.query_texts with
      | some texts =>
          if texts.isEmpty then
            .error (.InvalidInput "knn.query_texts must not be empty")
          else .ok (.queryTexts texts knn.where_meta)
      | none => .error (.InvalidInput "knn requires either query_embeddings or query_texts")

/-- C8: the hybrid search entry points take fast paths that bypass the hybrid
engine — non-empty text queries with no search_params and no filters dispatch
straight to plain `query_texts`; an advanced call with a knn config but no
query and no rank dispatches to the KNN-only path, which delegates to plain
`query_embeddings` (vectors provided) or plain `query_texts` (texts provided). -/
theorem c8_hybrid_fast_paths
    (queries texts : List String) (embs : List Embedding)
    (wm : Option Filter) (qt : Option (List String)) (nr : Option Nat) (n : Nat)
    (hq : queries ≠ []) (he : embs ≠ []) (ht : texts ≠ []) :
    hybrid_search_route queries none none none n =
      HybridRoute.queryTexts queries none none n ∧
    (∀ knn : HybridKnn, hybrid_search_advanced_route none (some knn) none =
      AdvancedRoute.knnOnly knn) ∧
    hybrid_search_advanced_knn_only_model ⟨qt, some embs, wm, nr⟩ =
      .ok (.queryEmbeddings embs wm) ∧
    hybrid_search_advanced_knn_only_model ⟨some texts, none, wm, nr⟩ =
      .ok (.queryTexts texts wm) := by
  refine ⟨?_, fun knn => rfl, ?_, ?_⟩
  · simp [hybrid_search_route, List.isEmpty_iff, hq]
  · simp [hybrid_search_advanced_knn_only_model, List.isEmpty_iff, he]
  · simp [hybrid_search_advanced_knn_only_model, List.isEmpty_iff, ht]

/-- C8 witness: the fast paths at a one-query text call and at KNN-only calls
with one vector and with one text. -/
theorem c8_witness :
    hybrid_search_route ["q"] none none none 5 =
      HybridRoute.queryTexts ["q"] none none 5 ∧
    (∀ knn : HybridKnn, hybrid_search_advanced_route none (some knn) none =
      AdvancedRoute.knnOnly knn) ∧
    hybrid_search_advanced_knn_only_model ⟨none, some [[]], none, none⟩ =
      .ok (.queryEmbeddings [[]] none) ∧
    hybrid_search_advanced_knn_only_model ⟨some ["t"], none, none, none⟩ =
      .ok (.queryTexts ["t"] none) :=
  c8_hybrid_fast_paths ["q"] ["t"] [[]] none none none 5
    (by simp) (by simp) (by simp)

/-- Distance metric of a collection (`config.rs::DistanceMetric`). -/
inductive DistanceMetric where
  | L2
  | Cosine
  | InnerProduct

/-- Embedding of `collection.rs::distance_fn`. -/
def distance_fn : DistanceMetric → String
  | .L2 => "l2_distance"
  | .Cosine => "cosine_distance"
  | .InnerProduct => "inner_product"

/-- Field selector for query/get responses (`types.rs::IncludeField`). -/
inductive IncludeField where
  | Documents
  | Metadatas
  | Embeddings

/-- Embedding of `collection.rs::include_documents`: documents are included by
default. -/
def include_documents : Option (List IncludeField) → Bool
  | none => true
  | some list => list.any fun f => match f with | .Documents => true | _ => false

/-- Embedding of `collection.rs::include_metadatas`: metadatas are included by
default. -/
def include_metadatas : Option (List IncludeField) → Bool
  | none => true
  | some list => list.any fun f => match f with | .Metadatas => true | _ => false

/-- Embedding of `collection.rs::include_embeddings`: embeddings are excluded
by default. -/
def include_embeddings : Option (List IncludeField) → Bool
  | none => false
  | some list => list.any fun f => match f with | .Embeddings => true | _ => false

/-- Embedding of `collection.rs::build_select_clause`. -/
def build_select_clause (inc : Option (List IncludeField)) : String :=
  let fields := ["_id"]
    ++ (if include_documents inc then ["document"] else [])
    ++ (if include_metadatas inc then ["CAST(metadata AS CHAR) AS metadata"] else [])
    ++ (if include_embeddings inc then ["embedding"] else [])
  joinSep ", " fields

/-- A backend result row (`backend.rs::BackendRow`), modelled by the decoded
column views the normalizer reads.  The trait returns `Result<Option<T>>` and
every call site collapses the error layer with `.unwrap_or(None)`, so each
accessor is modelled as an `Option`; byte columns are modelled by their
UTF-8-decoded string. -/
structure Row where
  idBytes : Option String
  idStr : Option String
  document : Option String
  metaStr : Option String
  metaBytes : Option String
  embedding : Option String
  distance : Option Float

/-- Embedding of `collection.rs::id_from_row`: prefer raw id bytes, fall back
to the string column, default to the empty string. -/
def id_from_row (r : Row) : String :=
  match r.idBytes with
  | some s => s
  | none =>
      match r.idStr with
      | some s => s
      | none => ""

/-- Embedding of `collection.rs::metadata_from_row`, parameterized by the JSON
parser (`serde_json::from_str`, an external crate): string column first, then
byte column, else JSON null. -/
def metadata_from_row (parseJson : String → Option Json) (r : Row) : Json :=
  match r.metaStr.bind parseJson with
  | some v => v
  | none =>
      match r.metaBytes.bind parseJson with
      | some v => v
      | none => Json.null

/-- Embedding of `collection.rs::vector_to_string`, parameterized by the
scalar printer (the Rust `f32::to_string`, external): bracketed comma-joined
text. -/
def vector_to_string (toStr : α → String) (v : List α) : String :=
  "[" ++ joinSep "," (v.map toStr) ++ "]"

/-- Rust two-sided trimming: repeatedly strip characters satisfying `p` from
both ends (`str::trim_matches` / `str::trim`). -/
def trimIf (p : Char → Bool) (l : List Char) : List Char :=
  ((l.dropWhile p).reverse.dropWhile p).reverse

/-- Embedding of `collection.rs::parse_vector_string`, parameterized by the
scalar parser (the Rust `str::parse::<f32>`, external): trim brackets, split on
commas, trim whitespace, parse each token, silently skipping failures. -/
def parse_vector_string (parse : String → Option α) (s : String) : List α :=
  ((trimIf (fun c => c == '[' || c == ']') s.data).splitOn ',').filterMap
    fun tok => parse (String.mk (trimIf (fun c => c.isWhitespace) tok))

/-- Result shape for similarity queries (`types.rs::QueryResult`). -/
structure QueryResult where
  ids : List (List String)
  documents : Option (List (List String))
  metadatas : Option (List (List Json))
  embeddings : Option (List (List Embedding))
  distances : Option (List (List Float))

/-- Embedding of `collection.rs::Collection::query_embeddings` with the SQL
backend modelled as a `fetch` function from statement text to rows (external
collaborator), and the external codecs as parameters.  One SELECT per input
vector; each input vector contributes exactly one outer slot whatever its row
count. -/
def query_embeddings_model (distance : DistanceMetric) (name : String)
    (fetch : String → List Row) (parseJson : String → Option Json)
    (parseF : String → Option Float) (toStr : Float → String)
    (query_embeddings : List Embedding) (n_results : Nat)
    (where_meta : Option Filter) (where_doc : Option DocFilter)
    (inc : Option (List IncludeField)) :
    Except SeekDbError QueryResult :=
  if query_embeddings.isEmpty then
    .error (.InvalidInput "query_embeddings cannot be empty")
  else
    let sql_where := build_where_clause where_meta where_doc none
    let select_clause := build_select_clause inc
    let slots := query_embeddings.map fun emb =>
      let distance_func := distance_fn distance
      let vector_str := vector_to_string toStr emb
      let sql := "SELECT " ++ select_clause ++ ", " ++ distance_func ++
        "(embedding, \x27" ++ vector_str ++ "\x27) AS distance FROM `" ++
        table_name name ++ "` " ++ sql_where.clause ++ " ORDER BY " ++
        distance_func ++ "(embedding, \x27" ++ vector_str ++ "\x27) LIMIT " ++
        toString n_results
      let rows := fetch sql
      (rows.map id_from_row,
       rows.map (fun row => row.document.getD ""),
       rows.map (metadata_from_row parseJson),
       rows.filterMap (fun row => row.embedding.map (parse_vector_string parseF)),
       rows.map (fun row => row.distance.getD 0.0))
    .ok
    { ids := slots.map (fun s => s.1)
      documents :=
        if include_documents inc then some (slots.map fun s => s.2.1) else none
      metadatas :=
        if include_metadatas inc then some (slots.map fun s => s.2.2.1) else none
      embeddings :=
        if include_embeddings inc then some (slots.map fun s => s.2.2.2.1) else none
      distances := some (slots.map fun s => s.2.2.2.2) }

/-- C7: for every non-empty list of `k` input query vectors,
`query_embeddings` returns a result with exactly `k` outer slots in `ids` and
`distances` is always present with exactly `k` outer slots; the empty input
list fails with `InvalidInput` under every backend, i.e. before executing any
query. -/
theorem c7_query_embeddings_batch_shape (distance : DistanceMetric)
    (name : String) (fetch : String → List Row)
    (parseJson : String → Option Json) (parseF : String → Option Float)
    (toStr : Float → String) (qe : List Embedding) (n : Nat)
    (wm : Option Filter) (wd : Option DocFilter)
    (inc : Option (List IncludeField)) (h : qe ≠ []) :
    (∀ fetch' : String → List Row,
      query_embeddings_model distance name fetch' parseJson parseF toStr
        [] n wm wd inc =
      .error (.InvalidInput "query_embeddings cannot be empty")) ∧
    ∃ r, query_embeddings_model distance name fetch parseJson parseF toStr
        qe n wm wd inc = .ok r ∧
      r.ids.length = qe.length ∧
      ∃ ds, r.distances = some ds ∧ ds.length = qe.length := by
  refine ⟨fun fetch' => rfl, ?_⟩
  match qe, h with
  | q :: qs, _ =>
      exact ⟨_, rfl, by simp [query_embeddings_model], _, rfl,
        by simp [query_embeddings_model]⟩

/-- C7 witness: a single (empty) query vector against a backend returning no
rows yields exactly one outer slot, and the empty input errs. -/
theorem c7_witness :
    (∀ fetch' : String → List Row,
      query_embeddings_model .L2 "t" fetch' (fun _ => none) (fun _ => none)
        (fun _ => "") [] 1 none none none =
      .error (.InvalidInput "query_embeddings cannot be empty")) ∧
    ∃ r, query_embeddings_model .L2 "t" (fun _ => []) (fun _ => none)
        (fun _ => none) (fun _ => "") [[]] 1 none none none = .ok r ∧
      r.ids.length = 1 ∧
      ∃ ds, r.distances = some ds ∧ ds.length = 1 :=
  c7_query_embeddings_batch_shape .L2 "t" (fun _ => []) (fun _ => none)
    (fun _ => none) (fun _ => "") [[]] 1 none none none (by simp)

/-- Embedding of `collection.rs::validate_lengths`: batch shape and dimension
validation for explicitly provided embeddings. -/
def validate_lengths (ids : List String) (embeddings : List Embedding)
    (metadatas : Option (List Metadata)) (documents : Option (List String))
    (dimension : Nat) : Except SeekDbError Unit :=
  if !embeddings.isEmpty && embeddings.length != ids.length then
    .error (.InvalidInput ("embeddings length " ++ toString embeddings.length ++
      " does not match ids length " ++ toString ids.length))
  else
    match embeddings.find? (fun e => e.length != dimension) with
    | some e =>
        .error (.InvalidInput ("embedding dimension " ++ toString e.length ++
          " does not match collection dimension " ++ toString dimension))
    | none =>
        if (match documents with
            | some docs => !docs.isEmpty && docs.length != ids.length
            | none => false) then
          .error (.InvalidInput "documents length does not match ids length")
        else if (match metadatas with
            | some metas => !metas.isEmpty && metas.length != ids.length
            | none => false) then
          .error (.InvalidInput "metadatas length does not match ids length")
        else .ok ()

/-- Embedding of the embedding-resolution branch of
`collection.rs::Collection::add` (explicit embeddings, else derive from
documents via the embedding function, else error).  The embedding function is
the external collaborator, modelled as a pure function; its own failure modes
are outside this model. -/
def add_resolve_embeddings (dimension : Nat) (ids : List String)
    (embeddings : Option (List Embedding)) (metadatas : Option (List Metadata))
    (documents : Option (List String))
    (ef : Option (List String → List Embedding)) :
    Except SeekDbError (List Embedding) :=
  match embeddings with
  | some embs =>
      match validate_lengths ids embs metadatas documents dimension with
      | .error e => .error e
      | .ok _ => .ok embs
  | none =>
      match documents with
      | some docs =>
          match ef with
          | none =>
              .error (.InvalidInput
                "documents provided but no embeddings and no embedding function; provide embeddings or set embedding_function")
          | some f =>
              let generated := f docs
              if generated.length != ids.length then
                .error (.InvalidInput ("embeddings length " ++
                  toString generated.length ++ " does not match ids length " ++
                  toString ids.length))
              else
                match generated.find? (fun e => e.length != dimension) with
                | some e =>
                    .error (.InvalidInput ("embedding dimension " ++
                      toString e.length ++
                      " does not match collection dimension " ++
                      toString dimension))
                | none => .ok generated
      | none =>
          .error (.InvalidInput
            "either provide embeddings or provide documents with embedding_function")

/-- Embedding of the embedding-resolution branch of
`collection.rs::Collection::upsert`: unlike `add`, a document-only upsert with
no embedding function resolves to no embeddings (keep the stored ones) instead
of an error. -/
def upsert_resolve_embeddings (dimension : Nat) (ids : List String)
    (embeddings : Option (List Embedding)) (metadatas : Option (List Metadata))
    (documents : Option (List String))
    (ef : Option (List String → List Embedding)) :
    Except SeekDbError (Option (List Embedding)) :=
  match embeddings with
  | some embs =>
      match validate_lengths ids embs metadatas documents dimension with
      | .error e => .error e
      | .ok _ => .ok (some embs)
  | none =>
      match documents with
      | some docs =>
          match ef with
          | some f =>
              let generated := f docs
              if generated.length != ids.length then
                .error (.InvalidInput "embeddings length does not match ids length")
              else
                match generated.find? (fun e => e.length != dimension) with
                | some e =>
                    .error (.InvalidInput ("embedding dimension " ++
                      toString e.length ++
                      " does not match collection dimension " ++
                      toString dimension))
                | none => .ok (some generated)
          | none => .ok none
      | none => .ok none

/-- What the per-id read of an existing row in `Collection::upsert` yields when the
row exists (via `get` with all fields included): the stored document string,
the decoded metadata JSON, and the parsed embedding when the embedding column
was present in the fetched row. -/
structure ExistingRow where
  doc : String
  meta : Json
  emb : Option Embedding

/-- One per-id statement issued by `Collection::upsert`: a sparse UPDATE
(column/value pairs, then the id) or a full INSERT. -/
inductive UpsertStmt where
  | update (sets : List (String × String)) (id : String)
  | insert (id document metaJson embeddingStr : String)

/-- The per-id body of the `Collection::upsert` loop (lines 372-474): read the
existing row, merge with `merge_values`, then UPDATE only the caller-provided
columns if the row exists (no statement when no column is provided), else
INSERT the fully merged row.  `render` models `serde_json::to_string`. -/
def upsert_row_stmt (render : Json → String) (toStr : Float → String)
    (resolved : Option (List Embedding)) (metadatas : Option (List Metadata))
    (documents : Option (List String)) (existing : String → Option ExistingRow)
    (id : String) (i : Nat) : Option UpsertStmt :=
  let exRow := existing id
  let rowExists := exRow.isSome
  let existing_doc := exRow.map (fun r => r.doc)
  let existing_meta := exRow.map (fun r => r.meta)
  let existing_emb := exRow.bind (fun r => r.emb)
  let new_doc := documents.bind (fun d => d.get? i)
  let new_meta := metadatas.bind (fun m => m.get? i)
  let new_emb := resolved.bind (fun e => e.get? i)
  let merged := merge_values existing_doc existing_meta existing_emb
    new_doc new_meta new_emb
  let final_doc := merged.1
  let final_meta := merged.2.1
  let final_emb := merged.2.2
  if rowExists then
    let sets : List (String × String) :=
      (if documents.isSome then [("document", final_doc.getD "")] else [])
      ++ (if metadatas.isSome then [("metadata", render final_meta)] else [])
      ++ (if resolved.isSome then
            match final_emb with
            | some emb => [("embedding", vector_to_string toStr emb)]
            | none => []
          else [])
    if sets.isEmpty then none else some (.update sets id)
  else
    some (.insert id (final_doc.getD "") (render final_meta)
      ((final_emb.map (vector_to_string toStr)).getD "[]"))

/-- The indexed per-id loop of `Collection::upsert`. -/
def upsert_loop (render : Json → String) (toStr : Float → String)
    (resolved : Option (List Embedding)) (metadatas : Option (List Metadata))
    (documents : Option (List String)) (existing : String → Option ExistingRow) :
    List String → Nat → List (Option UpsertStmt)
  | [], _ => []
  | id :: rest, i =>
      upsert_row_stmt render toStr resolved metadatas documents existing id i ::
        upsert_loop render toStr resolved metadatas documents existing rest (i + 1)

/-- Embedding of `collection.rs::Collection::upsert` up to backend I/O: input
guards, embedding resolution, then the per-id statement plan (`none` entries
are ids for which no statement is issued). -/
def upsert_plan (dimension : Nat)
    (ef : Option (List String → List Embedding))
    (render : Json → String) (toStr : Float → String)
    (existing : String → Option ExistingRow)
    (ids : List String) (embeddings : Option (List Embedding))
    (metadatas : Option (List Metadata)) (documents : Option (List String)) :
    Except SeekDbError (List (Option UpsertStmt)) :=
  if ids.isEmpty then
    .error (.InvalidInput "ids must not be empty")
  else if embeddings.isNone && documents.isNone && metadatas.isNone then
    .error (.InvalidInput "Neither embeddings nor documents nor metadatas provided.")
  else if (match documents with
      | some docs => !docs.isEmpty && docs.length != ids.length
      | none => false) then
    .error (.InvalidInput "documents length does not match ids length")
  else if (match metadatas with
      | some metas => !metas.isEmpty && metas.length != ids.length
      | none => false) then
    .error (.InvalidInput "metadatas length does not match ids length")
  else
    match upsert_resolve_embeddings dimension ids embeddings metadatas documents ef with
    | .error e => .error e
    | .ok resolved =>
        .ok (upsert_loop render toStr resolved metadatas documents existing ids 0)

theorem upsert_loop_get? (render : Json → String) (toStr : Float → String)
    (resolved : Option (List Embedding)) (metadatas : Option (List Metadata))
    (documents : Option (List String)) (existing : String → Option ExistingRow) :
    ∀ (ids : List String) (start k : Nat),
      (upsert_loop render toStr resolved metadatas documents existing ids start).get? k =
        (ids.get? k).map (fun id =>
          upsert_row_stmt render toStr resolved metadatas documents existing id (start + k))
  | [], _, _ => by simp [upsert_loop]
  | id :: rest, start, 0 => by simp [upsert_loop]
  | id :: rest, start, k + 1 => by
      have ih := upsert_loop_get? render toStr resolved metadatas documents existing
        rest (start + 1) k
      simp only [upsert_loop, List.get?_cons_succ, ih]
      have : start + 1 + k = start + (k + 1) := by omega
      rw [this]

theorem upsert_loop_length (render : Json → String) (toStr : Float → String)
    (resolved : Option (List Embedding)) (metadatas : Option (List Metadata))
    (documents : Option (List String)) (existing : String → Option ExistingRow) :
    ∀ (ids : List String) (start : Nat),
      (upsert_loop render toStr resolved metadatas documents existing ids start).length =
        ids.length
  | [], _ => rfl
  | id :: rest, start => by
      simp [upsert_loop,
        upsert_loop_length render toStr resolved metadatas documents existing rest (start + 1)]

/-- C10: an upsert that provides documents but neither embeddings nor
metadatas, on a collection with no embedding function, succeeds — unlike
`add`, whose embedding resolution rejects the same situation — and for each id
whose row exists the issued UPDATE sets only the `document` column (for an
absent row the merged INSERT is issued: new document, null metadata, empty
embedding text). -/
theorem c10_upsert_docs_only_frame (dimension : Nat)
    (render : Json → String) (toStr : Float → String)
    (existing : String → Option ExistingRow)
    (ids docs : List String)
    (h1 : ids ≠ []) (h2 : docs.length = ids.length) :
    add_resolve_embeddings dimension ids none none (some docs) none =
      .error (.InvalidInput
        "documents provided but no embeddings and no embedding function; provide embeddings or set embedding_function") ∧
    ∃ l, upsert_plan dimension none render toStr existing ids none none (some docs) =
        .ok l ∧
      l.length = ids.length ∧
      (∀ i id doc row, ids.get? i = some id → docs.get? i = some doc →
        existing id = some row →
        l.get? i = some (some (.update [("document", doc)] id))) ∧
      (∀ i id doc, ids.get? i = some id → docs.get? i = some doc →
        existing id = none →
        l.get? i = some (some (.insert id doc (render Json.null) "[]"))) := by
  have hids : ids.isEmpty = false := by
    cases ids with
    | nil => exact absurd rfl h1
    | cons a t => rfl
  have hplan : upsert_plan dimension none render toStr existing ids none none (some docs) =
      .ok (upsert_loop render toStr none none (some docs) existing ids 0) := by
    simp [upsert_plan, upsert_resolve_embeddings, hids, h2]
  refine ⟨rfl, _, hplan, ?_, ?_, ?_⟩
  · exact upsert_loop_length render toStr none none (some docs) existing ids 0
  · intro i id doc row hid hdoc hex
    have hdoc' : docs[i]? = some doc := by
      simpa [List.get?_eq_getElem?] using hdoc
    rw [upsert_loop_get?, hid]
    simp only [Option.map_some, Nat.zero_add]
    simp [upsert_row_stmt, merge_values, hex, hdoc', Option.or]
  · intro i id doc hid hdoc hex
    have hdoc' : docs[i]? = some doc := by
      simpa [List.get?_eq_getElem?] using hdoc
    rw [upsert_loop_get?, hid]
    simp only [Option.map_some, Nat.zero_add]
    simp [upsert_row_stmt, merge_values, hex, hdoc', Option.or]

/-- C10 witness: one id whose row exists with a stored document `"old"`; the
planned statement is an UPDATE of the document column only, and the `add`
resolution of the same inputs errors. -/
theorem c10_witness :
    add_resolve_embeddings 3 ["a"] none none (some ["d"]) none =
      .error (.InvalidInput
        "documents provided but no embeddings and no embedding function; provide embeddings or set embedding_function") ∧
    ∃ l, upsert_plan 3 none (fun _ => "null") (fun _ => "")
        (fun _ => some ⟨"old", Json.null, none⟩) ["a"] none none (some ["d"]) =
        .ok l ∧
      l.length = ["a"].length ∧
      (∀ i id doc row, ["a"].get? i = some id → ["d"].get? i = some doc →
        (fun (_ : String) => some (ExistingRow.mk "old" Json.null none)) id = some row →
        l.get? i = some (some (.update [("document", doc)] id))) ∧
      (∀ i id doc, ["a"].get? i = some id → ["d"].get? i = some doc →
        (fun (_ : String) => some (ExistingRow.mk "old" Json.null none)) id = none →
        l.get? i = some (some (.insert id doc ((fun (_ : Json) => "null") Json.null) "[]"))) :=
  c10_upsert_docs_only_frame 3 (fun _ => "null") (fun _ => "")
    (fun _ => some ⟨"old", Json.null, none⟩) ["a"] ["d"] (by simp) rfl

theorem intercalate_cons_cons {α : Type} (sep a b : List α) (t : List (List α)) :
    List.intercalate sep (a :: b :: t) = a ++ sep ++ List.intercalate sep (b :: t) := by
  simp [List.intercalate, List.intersperse]

theorem joinSep_data (sep : String) : ∀ ss : List String,
    (joinSep sep ss).data = List.intercalate sep.data (ss.map String.data)
  | [] => by simp [joinSep, List.intercalate]
  | [x] => by simp [joinSep, List.intercalate, List.intersperse]
  | x :: y :: rest => by
      have ih := joinSep_data sep (y :: rest)
      simp only [joinSep, String.data_append, ih, List.map_cons]
      rw [intercalate_cons_cons]

theorem dropWhile_eq_self_of {α : Type} (p : α → Bool) (l : List α)
    (h : ∀ c ∈ l, p c = false) : l.dropWhile p = l := by
  cases l with
  | nil => rfl
  | cons a t => simp [List.dropWhile_cons, h a (by simp)]

theorem trimIf_eq_self (p : Char → Bool) (l : List Char)
    (h : ∀ c ∈ l, p c = false) : trimIf p l = l := by
  unfold trimIf
  rw [dropWhile_eq_self_of p l h,
    dropWhile_eq_self_of p l.reverse (fun c hc => h c (List.mem_reverse.mp hc)),
    List.reverse_reverse]

theorem trimIf_wrap (p : Char → Bool) (inner : List Char)
    (hp1 : p '[' = true) (hp2 : p ']' = true)
    (hin : ∀ c ∈ inner, p c = false) :
    trimIf p ('[' :: (inner ++ [']'])) = inner := by
  unfold trimIf
  rw [List.dropWhile_cons]
  simp only [hp1, if_true]
  cases inner with
  | nil => simp [List.dropWhile_cons, hp2]
  | cons a t =>
      have ha : p a = false := hin a (by simp)
      rw [show ((a :: t) ++ [']']) = a :: (t ++ [']']) from rfl,
        List.dropWhile_cons]
      simp only [ha, Bool.false_eq_true, if_false]
      rw [show (a :: (t ++ [']'])).reverse = ']' :: (t.reverse ++ [a]) by simp,
        List.dropWhile_cons]
      simp only [hp2, if_true]
      have hrev : ∀ c ∈ t.reverse ++ [a], p c = false := by
        intro c hc
        rcases List.mem_append.mp hc with hc | hc
        · exact hin c (by simp [List.mem_reverse.mp hc])
        · simp only [List.mem_singleton] at hc
          exact hc ▸ ha
      rw [dropWhile_eq_self_of p _ hrev]
      simp

theorem mem_intercalate_comma :
    ∀ (ls : List (List Char)) (c : Char),
      c ∈ List.intercalate [','] ls → c = ',' ∨ ∃ l ∈ ls, c ∈ l
  | [], c, h => by simp [List.intercalate] at h
  | [a], c, h => by
      simp only [List.intercalate, List.intersperse, List.flatten,
        List.append_nil] at h
      exact .inr ⟨a, by simp, by simpa using h⟩
  | a :: b :: t, c, h => by
      rw [intercalate_cons_cons] at h
      rcases List.mem_append.mp h with h1 | h2
      · rcases List.mem_append.mp h1 with h3 | h4
        · exact .inr ⟨a, by simp, h3⟩
        · simp only [List.mem_singleton] at h4
          exact .inl h4
      · rcases mem_intercalate_comma (b :: t) c h2 with h5 | ⟨l, hl, hcl⟩
        · exact .inl h5
        · exact .inr ⟨l, List.mem_cons_of_mem a hl, hcl⟩

/-- C9: encoding a vector to the bracketed comma-joined wire format and then
decoding it reproduces the vector exactly, provided the scalar codec (the Rust
`f32::to_string` and `str::parse::<f32>`, external stdlib collaborators) round
trips, never prints commas, brackets or whitespace (all true of the Rust
finite-float formatting), and rejects the empty string. -/
theorem c9_vector_wire_format_round_trip {α : Type}
    (toStr : α → String) (parse : String → Option α)
    (hrt : ∀ x, parse (toStr x) = some x)
    (hchars : ∀ x, ∀ c ∈ (toStr x).data,
      ((c == '[' || c == ']') = false ∧ c ≠ ',' ∧ c.isWhitespace = false))
    (hempty : parse "" = none)
    (v : List α) :
    parse_vector_string parse (vector_to_string toStr v) = v := by
  have hdata : (vector_to_string toStr v).data =
      '[' :: ((joinSep "," (v.map toStr)).data ++ [']']) := by
    simp [vector_to_string, String.data_append]
  have hinner : (joinSep "," (v.map toStr)).data =
      List.intercalate [','] (v.map fun x => (toStr x).data) := by
    rw [joinSep_data]
    simp [List.map_map]
    rfl
  have hmem : ∀ c ∈ (joinSep "," (v.map toStr)).data,
      (c == '[' || c == ']') = false := by
    intro c hc
    rw [hinner] at hc
    rcases mem_intercalate_comma _ c hc with rfl | ⟨l, hl, hcl⟩
    · rfl
    · obtain ⟨x, _, rfl⟩ := List.mem_map.mp hl
      exact (hchars x c hcl).1
  rw [parse_vector_string, hdata,
    trimIf_wrap _ _ rfl rfl hmem, hinner]
  cases v with
  | nil =>
      simp only [List.map_nil]
      rw [show ([','].intercalate ([] : List (List Char))) = [] by
        simp [List.intercalate], List.splitOn_nil]
      have h0 : parse (String.mk (trimIf (fun c => c.isWhitespace) [])) = none := hempty
      simp only [List.filterMap_cons, h0, List.filterMap_nil]
  | cons x xs =>
      rw [List.splitOn_intercalate _ ','
        (by
          intro l hl hcm
          obtain ⟨y, _, rfl⟩ := List.mem_map.mp hl
          exact (hchars y ',' hcm).2.1 rfl)
        (by simp)]
      have hfun : (fun tok => parse (String.mk (trimIf (fun c => c.isWhitespace) tok))) ∘
          (fun y => (toStr y).data) = fun y => some y := by
        funext y
        have htrim : trimIf (fun c => c.isWhitespace) (toStr y).data = (toStr y).data :=
          trimIf_eq_self _ _ (fun c hc => (hchars y c hc).2.2)
        simp only [Function.comp_apply, htrim]
        show parse (String.mk (toStr y).data) = some y
        exact hrt y
      rw [List.filterMap_map, hfun, List.filterMap_some]

/-- A concrete scalar codec used to witness the round-trip theorem. -/
def boolToStr : Bool → String
  | true => "1"
  | false => "0"

/-- Parser inverse of `boolToStr`. -/
def boolParse (s : String) : Option Bool :=
  if s = "1" then some true else if s = "0" then some false else none

/-- C9 witness: the round trip at the three-element vector `[1, 0, 1]` under a
concrete scalar codec satisfying the stated codec properties. -/
theorem c9_witness :
    parse_vector_string boolParse (vector_to_string boolToStr [true, false, true]) =
      [true, false, true] :=
  c9_vector_wire_format_round_trip boolToStr boolParse
    (by decide) (by decide) (by decide) [true, false, true]

end SeekDb
